import Mathlib

/-!
Verification of the PII detection / anonymization orchestration layer
(`src/main.py` of the repository).

The repository is a thin orchestration layer over external engines
(a presidio analyzer, a presidio anonymizer, the Python `csv` and `json`
codecs).  The embedding below translates the repository's own functions
(`build_custom_regex_recognizer`, `detect_pii`, `anonymize_text`,
`process_json` and `process_file`) into Lean, parameterizing them over
the external engines, which are passed in as explicit function arguments
(they are process-wide singletons in the source).  Text is modelled as
`List Char`, Python slices `text[start:end]` as `pySlice`, and Python
float scores as rationals.
-/

/-- Mirrors presidio's `RecognizerResult`: an entity type, a confidence
score and a character span `[start, stop)` of the analyzed text.  The
source field named `end` is rendered `stop` (`end` is a Lean keyword). -/
structure RecognizerResult where
  entity_type : String
  score : ℚ
  start : ℕ
  stop : ℕ
deriving DecidableEq, Repr

/-- One entry of the `patterns=[{"name": ..., "regex": ..., "score": ...}]`
list passed to presidio's `PatternRecognizer` in `build_custom_regex_recognizer`. -/
structure PatternDef where
  name : String
  regex : String
  score : ℚ
deriving DecidableEq, Repr

/-- Mirrors the arguments with which `build_custom_regex_recognizer`
constructs a presidio `PatternRecognizer`. -/
structure PatternRecognizer where
  supported_entity : String
  patterns : List PatternDef
deriving DecidableEq, Repr

/-- The external analyzer engine: given the optional custom recognizer
added to the registry, the text, and the optional `entities` restriction
(`none` models calling `analyze` without an `entities` argument), it
returns a list of recognizer results.  `main.py` builds a fresh
`RecognizerRegistry`/`AnalyzerEngine` per call; the whole analysis is
modelled as one function. -/
def AnalyzeFn : Type :=
  Option PatternRecognizer → List Char → Option (List String) → List RecognizerResult

/-- The external anonymizer engine (`AnonymizerEngine.anonymize`):
text and analyzer results in, anonymized text out. -/
def AnonFn : Type := List Char → List RecognizerResult → List Char

/-- Python slicing `text[start:stop]` for natural indices: drop `start`
characters, then take `stop - start` (truncated subtraction mirrors
Python's clamping of `stop ≤ start` to the empty slice, and `List.take`
clamps `stop` past the end exactly as Python does). -/
def pySlice (text : List Char) (start stop : ℕ) : List Char :=
  (text.drop start).take (stop - start)

/-- Python's `round(x, 3)` on a rational score: round `x * 1000` to an
integer and divide back.  (Python rounds floats half-to-even; the claims
never depend on the tie-breaking rule, only on the result being an
integer multiple of 1/1000 lying between the rounded bounds.) -/
def round3 (q : ℚ) : ℚ := (round (q * 1000) : ℚ) / 1000

/-- Python truthiness of an optional string argument (`if custom_regex:`):
`None` and the empty string are falsy. -/
def truthyStr : Option String → Bool
  | none => false
  | some s => !(s == "")

/-- `PII_LABELS` from `main.py` lines 29-35.  It maps presidio entity
names to display labels.  Note: the source defines it but never uses it;
it is reproduced here because claim C2 turns on that fact. -/
def PII_LABELS : List (String × String) :=
  [("PERSON", "PERSON"),
   ("EMAIL_ADDRESS", "EMAIL"),
   ("PHONE_NUMBER", "PHONE"),
   ("LOCATION", "LOCATION"),
   ("ORG", "ORGANIZATION")]

/-- `build_custom_regex_recognizer` (`main.py` lines 45-55).  `patterns`
is falsy (absent or empty) ⇒ `None`.  Otherwise a `PatternRecognizer`
tagged `CUSTOM_PII` with one pattern of score 0.85 is constructed; the
construction may raise (e.g. an invalid regex), which the source swallows
into `None`.  The external constructor's success is modelled by the
predicate `regexOk` supplied by the environment. -/
def build_custom_regex_recognizer (regexOk : String → Bool) (patterns : Option String) :
    Option PatternRecognizer :=
  match patterns with
  | none => none
  | some p =>
    if p = "" then none
    else if regexOk p then
      some { supported_entity := "CUSTOM_PII",
             patterns := [{ name := "custom_pattern", regex := p, score := 85/100 }] }
    else none

/-- The custom recognizer that `detect_pii` and `anonymize_text` add to
the registry: built only when `custom_regex` is truthy (`main.py`
lines 66-69 and 99-102). -/
def customOf (regexOk : String → Bool) (custom_regex : Option String) :
    Option PatternRecognizer :=
  if truthyStr custom_regex then build_custom_regex_recognizer regexOk custom_regex
  else none

/-- The `entities` list passed to `analyzer.analyze` in `detect_pii`
(`main.py` line 75). -/
def detectEntities : List String :=
  ["PERSON", "EMAIL_ADDRESS", "PHONE_NUMBER", "LOCATION", "CREDIT_CARD", "CUSTOM_PII"]

/-- One element of the "readable dict" list built by `detect_pii`
(`main.py` lines 80-87): `{"entity": ..., "score": ..., "text": ...}`. -/
structure DetectEntry where
  entity : String
  score : ℚ
  text : List Char
deriving DecidableEq, Repr

/-- `detect_pii` (`main.py` lines 62-88): run the analyzer restricted to
`detectEntities` (with the optional custom recognizer) and convert each
result to a readable entry with the score rounded to three decimals and
the matched substring `text[res.start:res.end]`. -/
def detect_pii (analyze : AnalyzeFn) (regexOk : String → Bool)
    (text : List Char) (custom_regex : Option String) : List DetectEntry :=
  let results := analyze (customOf regexOk custom_regex) text (some detectEntities)
  results.map (fun r =>
    { entity := r.entity_type, score := round3 r.score, text := pySlice text r.start r.stop })

/-- `anonymize_text` (`main.py` lines 95-112): run the analyzer with no
`entities` restriction, drop every result whose matched substring is in
the whitelist (the filter runs only when the whitelist is truthy, i.e.
non-empty), then hand text and surviving results to the anonymizer
engine. -/
def anonymize_text (analyze : AnalyzeFn) (anonEngine : AnonFn) (regexOk : String → Bool)
    (text : List Char) (custom_regex : Option String) (whitelist : List (List Char)) :
    List Char :=
  let results := analyze (customOf regexOk custom_regex) text none
  let results2 :=
    if whitelist.isEmpty then results
    else results.filter (fun r => decide (pySlice text r.start r.stop ∉ whitelist))
  anonEngine text results2

/-- Modelled from the spec: the external anonymizer engine replaces each
detected span with a category-derived placeholder token (presidio's
default operator renders `<ENTITY_TYPE>`); text outside the spans is
preserved byte-for-byte (spec §4.3).  The engine itself is not part of
the repository.  Placeholder for one entity type. -/
def placeholder (entity_type : String) : List Char :=
  '<' :: entity_type.data ++ ['>']

/-- Modelled from the spec: span replacement from position `pos` on, for
results whose spans are sorted and non-overlapping (which presidio's
deconflicted output guarantees): copy the text up to the next span, emit
the placeholder, continue after the span. -/
def applySpansFrom (text : List Char) (pos : ℕ) : List RecognizerResult → List Char
  | [] => text.drop pos
  | r :: rest => pySlice text pos r.start ++ placeholder r.entity_type ++
      applySpansFrom text r.stop rest

/-- Modelled from the spec: the external anonymizer engine as a whole
(spec §9: `anonymize(text, matches) → text`). -/
def applySpans (text : List Char) (results : List RecognizerResult) : List Char :=
  applySpansFrom text 0 results

/-- Well-formedness of an analyzer result list for `text`: spans are
in order and non-overlapping, and lie inside the text.  Presidio's
post-processed output satisfies this; the anonymizer-facing claims
assume it. -/
def SpansWF (text : List Char) (rs : List RecognizerResult) : Prop :=
  rs.Pairwise (fun a b => a.stop ≤ b.start) ∧
    ∀ r ∈ rs, r.start ≤ r.stop ∧ r.stop ≤ text.length

instance (text : List Char) (rs : List RecognizerResult) : Decidable (SpansWF text rs) := by
  unfold SpansWF; infer_instance

/-- `sub` occurs contiguously inside `whole`. -/
def occursIn (sub whole : List Char) : Prop :=
  ∃ pre post, whole = pre ++ sub ++ post

/-- A parsed JSON value, as produced by Python's `json.loads`: maps with
ordered keys, lists, strings, and the non-string scalars (numbers —
modelled as rationals — booleans and null). -/
inductive JsonVal where
  | obj : List (String × JsonVal) → JsonVal
  | arr : List JsonVal → JsonVal
  | str : List Char → JsonVal
  | num : ℚ → JsonVal
  | boolean : Bool → JsonVal
  | null : JsonVal
deriving Repr

mutual

/-- `process_json` (`main.py` lines 156-166): rewrite every string leaf
with `leaf`, recurse through maps (keys untouched) and lists, and pass
every other scalar through unchanged. -/
def process_json (leaf : List Char → JsonVal) : JsonVal → JsonVal
  | .obj kvs => .obj (process_json_obj leaf kvs)
  | .arr xs => .arr (process_json_arr leaf xs)
  | .str s => leaf s
  | .num q => .num q
  | .boolean b => .boolean b
  | .null => .null

/-- The dict comprehension `{k: process_json(v) for k, v in obj.items()}`. -/
def process_json_obj (leaf : List Char → JsonVal) :
    List (String × JsonVal) → List (String × JsonVal)
  | [] => []
  | (k, v) :: rest => (k, process_json leaf v) :: process_json_obj leaf rest

/-- The list comprehension `[process_json(x) for x in obj]`. -/
def process_json_arr (leaf : List Char → JsonVal) : List JsonVal → List JsonVal
  | [] => []
  | x :: rest => process_json leaf x :: process_json_arr leaf rest

end

mutual

/-- Structural-shape equality of two JSON values: same keys in the same
order, same list lengths, equal non-string scalars; string leaves may
differ arbitrarily. -/
def sameShape : JsonVal → JsonVal → Bool
  | .obj a, .obj b => sameShapeObj a b
  | .arr a, .arr b => sameShapeArr a b
  | .str _, .str _ => true
  | .num a, .num b => decide (a = b)
  | .boolean a, .boolean b => a == b
  | .null, .null => true
  | _, _ => false

/-- `sameShape` on map entry lists. -/
def sameShapeObj : List (String × JsonVal) → List (String × JsonVal) → Bool
  | [], [] => true
  | (k1, v1) :: r1, (k2, v2) :: r2 => k1 == k2 && sameShape v1 v2 && sameShapeObj r1 r2
  | _, _ => false

/-- `sameShape` on value lists. -/
def sameShapeArr : List JsonVal → List JsonVal → Bool
  | [], [] => true
  | x :: xs, y :: ys => sameShape x y && sameShapeArr xs ys
  | _, _ => false

end

/-- In detect mode a JSON string leaf becomes the list of readable
detection dicts (`detect_pii(obj, custom_regex)` placed as a JSON value
and later serialized by `json.dumps`). -/
def detectLeaf (entries : List DetectEntry) : JsonVal :=
  .arr (entries.map (fun e =>
    .obj [("entity", .str e.entity.data), ("score", .num e.score), ("text", .str e.text)]))

/-- Python's `w.split(",")`: split on every comma, keeping empty pieces. -/
def splitComma : List Char → List (List Char)
  | [] => [[]]
  | c :: rest =>
    if c = ',' then [] :: splitComma rest
    else
      match splitComma rest with
      | [] => [[c]]
      | p :: ps => (c :: p) :: ps

/-- Python's `w.strip()`: drop whitespace from both ends. -/
def stripChars (s : List Char) : List Char :=
  ((s.dropWhile Char.isWhitespace).reverse.dropWhile Char.isWhitespace).reverse

/-- Python's `str.lower()`, character by character. -/
def pyLower (s : List Char) : List Char := s.map Char.toLower

/-- Python's `name.endswith(suffix)`. -/
def pyEndsWith (s suffix : List Char) : Bool := decide (suffix <:+ s)

/-- The characters of a string literal. -/
def strChars (s : String) : List Char := s.data

/-- The fixed message returned for `.pdf` uploads (`main.py` line 181). -/
def pdfMsg : String :=
  "PDF support present in your original code (presidio can\x27t extract text reliably)."

/-- `whitelist_items` (`main.py` line 123): when the whitelist string is
truthy, split on commas and strip each piece; otherwise the empty list. -/
def wlItemsOf : Option String → List (List Char)
  | none => []
  | some w => if w = "" then [] else (splitComma w.data).map stripChars

/-- The external collaborators `process_file` depends on, bundled: the
analyzer and anonymizer engines, the regex-construction success
predicate, the `csv` module's reader (decoded text to rows) and writer
(rows to text), the `json` module's parser (`none` models a raised
`JSONDecodeError`) and serializer, and Python's `str(...)` rendering of
a readable-dict list. -/
structure ExtEnv where
  analyze : AnalyzeFn
  anonEngine : AnonFn
  regexOk : String → Bool
  csvParse : List Char → List (List (List Char))
  csvWrite : List (List (List Char)) → List Char
  jsonParse : List Char → Option JsonVal
  jsonDump : JsonVal → List Char
  renderDetect : List DetectEntry → List Char

/-- The per-cell transformation of the CSV branch (`main.py` lines
137-141), also the whole-body transformation of the TXT branch (lines
173-177): `str(detect_pii(...))` in detect mode, `anonymize_text(...)`
otherwise. -/
def cellTransform (E : ExtEnv) (custom_regex : Option String)
    (wlItems : List (List Char)) (mode : String) (cell : List Char) : List Char :=
  if mode = "detect" then E.renderDetect (detect_pii E.analyze E.regexOk cell custom_regex)
  else anonymize_text E.analyze E.anonEngine E.regexOk cell custom_regex wlItems

/-- The string-leaf transformation of the JSON branch (`main.py`
line 162). -/
def jsonLeaf (E : ExtEnv) (custom_regex : Option String)
    (wlItems : List (List Char)) (mode : String) : List Char → JsonVal := fun s =>
  if mode = "detect" then detectLeaf (detect_pii E.analyze E.regexOk s custom_regex)
  else .str (anonymize_text E.analyze E.anonEngine E.regexOk s custom_regex wlItems)

/-- The CSV branch (`main.py` lines 129-149).  `reader[0]` on an empty
row list raises `IndexError`, modelled as `none`; otherwise the header
is passed through and every cell of every following row is transformed,
and the rewritten rows are serialized. -/
def processCsv (E : ExtEnv) (custom_regex : Option String) (wlItems : List (List Char))
    (mode : String) (data : List Char) : Option (List Char × Option (List Char)) :=
  match E.csvParse data with
  | [] => none
  | header :: rows =>
    let output_rows := rows.map (fun row => row.map (cellTransform E custom_regex wlItems mode))
    let out := E.csvWrite (header :: output_rows)
    some (out, some out)

/-- The JSON branch (`main.py` lines 152-168): parse, walk with
`process_json`, re-serialize.  A parse failure propagates (`none`). -/
def processJsonFile (E : ExtEnv) (custom_regex : Option String) (wlItems : List (List Char))
    (mode : String) (data : List Char) : Option (List Char × Option (List Char)) :=
  match E.jsonParse data with
  | none => none
  | some j =>
    let out := E.jsonDump (process_json (jsonLeaf E custom_regex wlItems mode) j)
    some (out, some out)

/-- The TXT branch (`main.py` lines 171-177). -/
def processTxt (E : ExtEnv) (custom_regex : Option String) (wlItems : List (List Char))
    (mode : String) (data : List Char) : Option (List Char × Option (List Char)) :=
  let processed := cellTransform E custom_regex wlItems mode data
  some (processed, some processed)

/-- An uploaded file: its name and its content decoded as text (UTF-8
decoding is performed by the Python runtime; a decoding failure would
propagate before any branch logic runs and is outside the claims). -/
structure UploadedFile where
  name : List Char
  data : List Char

/-- `process_file` (`main.py` lines 119-183): the full dispatch.  The
result is `none` when the source raises (empty CSV, JSON parse failure),
otherwise `some (display, payload)` mirroring the source's pair return
value, with `payload = none` where the source returns `None`. -/
def process_file (E : ExtEnv) (file : Option UploadedFile) (custom_regex : Option String)
    (whitelist : Option String) (mode : String) : Option (List Char × Option (List Char)) :=
  match file with
  | none => some (strChars "No file uploaded", none)
  | some f =>
    let wlItems := wlItemsOf whitelist
    let nm := pyLower f.name
    if pyEndsWith nm (strChars ".csv") then processCsv E custom_regex wlItems mode f.data
    else if pyEndsWith nm (strChars ".json") then
      processJsonFile E custom_regex wlItems mode f.data
    else if pyEndsWith nm (strChars ".txt") then processTxt E custom_regex wlItems mode f.data
    else if pyEndsWith nm (strChars ".pdf") then some (strChars pdfMsg, none)
    else some (strChars "Unsupported file type", none)

/-- The enumerated category labels exactly as the spec's data model lists
them ("one of PERSON, EMAIL, PHONE, LOCATION, ORGANIZATION, CREDIT_CARD,
CUSTOM"); stated from the spec's words for comparison with what
`detect_pii` actually emits. -/
def specLabels : List String :=
  ["PERSON", "EMAIL", "PHONE", "LOCATION", "ORGANIZATION", "CREDIT_CARD", "CUSTOM"]

/-- A concrete analyzer for witnesses: two sorted, non-overlapping
results on a 9-character text. -/
def analyzeW : AnalyzeFn := fun _ _ _ =>
  [{ entity_type := "PERSON", score := 1/2, start := 0, stop := 4 },
   { entity_type := "EMAIL_ADDRESS", score := 9/10, start := 5, stop := 9 }]

/-- Witness text for the anonymizer claims. -/
def textW : List Char := strChars "John ab@x"

/-- Witness whitelist containing the first detected span. -/
def wlW : List (List Char) := [strChars "John"]

/-- A concrete analyzer returning one `EMAIL_ADDRESS` result:
presidio reports raw entity names, and `EMAIL_ADDRESS` is in the
`entities` list `detect_pii` requests. -/
def analyzeC2 : AnalyzeFn := fun _ _ _ =>
  [{ entity_type := "EMAIL_ADDRESS", score := 1, start := 0, stop := 2 }]

/-- Witness text for the detection claims. -/
def textC2 : List Char := strChars "ab"

/-- A concrete analyzer that never reports anything (in particular on
empty text, as the spec's edge case states). -/
def analyzeNone : AnalyzeFn := fun _ _ _ => []

/-- A concrete external environment for `process_file` witnesses. -/
def extW : ExtEnv where
  analyze := analyzeW
  anonEngine := applySpans
  regexOk := fun _ => true
  csvParse := fun _ => [[strChars "name"], [strChars "John"]]
  csvWrite := fun rows => (rows.map List.flatten).flatten
  jsonParse := fun _ => some (.obj [("k", .str (strChars "v"))])
  jsonDump := fun _ => strChars "json"
  renderDetect := fun _ => strChars "entries"

/-- The same environment with a CSV reader yielding no rows (an empty
`.csv` upload). -/
def extEmptyCsv : ExtEnv := { extW with csvParse := fun _ => [] }

/-- The parsed JSON document `extW.jsonParse` returns. -/
def jsonW : JsonVal := .obj [("k", .str (strChars "v"))]

/-- Witness uploaded files of each relevant extension. -/
def fCsv : UploadedFile := { name := strChars "data.csv", data := strChars "X" }

/-- A JSON upload. -/
def fJson : UploadedFile := { name := strChars "d.json", data := strChars "X" }

/-- A TXT upload. -/
def fTxt : UploadedFile := { name := strChars "note.txt", data := strChars "X" }

/-- A PDF upload with mixed-case name, exercising `name.lower()`. -/
def fPdf : UploadedFile := { name := strChars "Report.PDF", data := strChars "X" }

/-- An upload with an unrecognized extension. -/
def fXyz : UploadedFile := { name := strChars "data.xyz", data := strChars "X" }

/-! ## Helper lemmas -/

theorem pySlice_decomp (t : List Char) {a b c d : ℕ} (hab : a ≤ b) (hbc : b ≤ c)
    (hcd : c ≤ d) :
    pySlice t a d = pySlice t a b ++ pySlice t b c ++ pySlice t c d := by
  unfold pySlice
  have h1 : d - a = (b - a) + ((c - b) + (d - c)) := by omega
  rw [h1, List.take_add, List.take_add, List.drop_drop, List.drop_drop]
  have h2 : a + (b - a) = b := by omega
  rw [h2]
  have h3 : b + (c - b) = c := by omega
  rw [h3, List.append_assoc]

theorem drop_eq_pySlice (t : List Char) (a : ℕ) : t.drop a = pySlice t a t.length := by
  unfold pySlice
  rw [List.take_of_length_le]
  simp

theorem pySlice_empty (t : List Char) {a b : ℕ} (h : b ≤ a) : pySlice t a b = [] := by
  unfold pySlice
  have : b - a = 0 := by omega
  simp [this]

theorem occursIn_nil (w : List Char) : occursIn [] w := ⟨[], w, rfl⟩

theorem occursIn_append_left (l : List Char) {sub w : List Char} (h : occursIn sub w) :
    occursIn sub (l ++ w) := by
  obtain ⟨p, q, rfl⟩ := h
  exact ⟨l ++ p, q, by simp [List.append_assoc]⟩

theorem occursIn_append_right (l : List Char) {sub w : List Char} (h : occursIn sub w) :
    occursIn sub (w ++ l) := by
  obtain ⟨p, q, rfl⟩ := h
  exact ⟨p, q ++ l, by simp [List.append_assoc]⟩

theorem occursIn_applySpansFrom (text : List Char) (s e : ℕ) (he : e ≤ text.length) :
    ∀ (rs : List RecognizerResult) (pos : ℕ), pos ≤ s →
    (∀ r ∈ rs, r.start ≤ r.stop) →
    rs.Pairwise (fun a b => a.stop ≤ b.start) →
    (∀ r ∈ rs, e ≤ r.start ∨ r.stop ≤ s) →
    occursIn (pySlice text s e) (applySpansFrom text pos rs) := by
  intro rs
  induction rs with
  | nil =>
    intro pos hpos _ _ _
    by_cases hse : s ≤ e
    · rw [applySpansFrom, drop_eq_pySlice, pySlice_decomp text hpos hse he]
      exact ⟨pySlice text pos s, pySlice text e text.length, rfl⟩
    · rw [pySlice_empty text (by omega)]
      exact occursIn_nil _
  | cons r rest ih =>
    intro pos hpos hle hpair hdisj
    rw [applySpansFrom]
    obtain ⟨hhead, htail⟩ := List.pairwise_cons.mp hpair
    rcases hdisj r (by simp) with hL | hR
    · by_cases hse : s ≤ e
      · rw [pySlice_decomp text hpos hse hL]
        exact ⟨pySlice text pos s,
          pySlice text e r.start ++ (placeholder r.entity_type ++
            applySpansFrom text r.stop rest), by simp [List.append_assoc]⟩
      · rw [pySlice_empty text (by omega)]
        exact occursIn_nil _
    · apply occursIn_append_left
      exact ih r.stop hR (fun x hx => hle x (by simp [hx])) htail
        (fun x hx => hdisj x (by simp [hx]))

theorem placeholder_occursIn (text : List Char) :
    ∀ (rs : List RecognizerResult) (pos : ℕ) (r : RecognizerResult), r ∈ rs →
    occursIn (placeholder r.entity_type) (applySpansFrom text pos rs) := by
  intro rs
  induction rs with
  | nil => intro pos r h; simp at h
  | cons x rest ih =>
    intro pos r hr
    rw [applySpansFrom]
    rcases List.mem_cons.mp hr with h | hmem
    · subst h
      exact ⟨pySlice text pos r.start, applySpansFrom text r.stop rest, rfl⟩
    · exact occursIn_append_left _ (ih x.stop r hmem)

theorem round3_mem_unit {q : ℚ} (h0 : 0 ≤ q) (h1 : q ≤ 1) :
    0 ≤ round3 q ∧ round3 q ≤ 1 := by
  unfold round3
  rw [round_eq]
  constructor
  · apply div_nonneg _ (by norm_num)
    have h2 : (0:ℤ) ≤ ⌊q * 1000 + 1/2⌋ := Int.le_floor.mpr (by push_cast; nlinarith)
    exact_mod_cast h2
  · rw [div_le_one (by norm_num)]
    have h2 : ⌊q * 1000 + 1/2⌋ < 1001 := by
      have h3 : q * 1000 + 1/2 < ((1001 : ℤ) : ℚ) := by push_cast; nlinarith
      exact Int.floor_lt.mpr h3
    have h4 : ⌊q * 1000 + 1/2⌋ ≤ 1000 := by omega
    exact_mod_cast h4

/-! ## Claims -/

/-- C5: `build_custom_regex_recognizer` yields `none` for an absent or
empty pattern and for a failed construction (indistinguishably), and
otherwise a recognizer tagged `CUSTOM_PII` with the fixed score 0.85. -/
theorem claim_C5_build_recognizer (regexOk : String → Bool) :
    build_custom_regex_recognizer regexOk none = none
    ∧ build_custom_regex_recognizer regexOk (some "") = none
    ∧ (∀ p : String, p ≠ "" → regexOk p = false →
        build_custom_regex_recognizer regexOk (some p) = none)
    ∧ (∀ p : String, p ≠ "" → regexOk p = true →
        build_custom_regex_recognizer regexOk (some p) =
          some { supported_entity := "CUSTOM_PII",
                 patterns := [{ name := "custom_pattern", regex := p, score := 85/100 }] }) := by
  refine ⟨rfl, rfl, ?_, ?_⟩ <;>
    · intro p h1 h2
      simp [build_custom_regex_recognizer, h1, h2]

/-- Witness for C5: at the pattern "x", a failing constructor yields
`none` and a succeeding one yields the `CUSTOM_PII` recognizer. -/
theorem claim_C5_build_recognizer_witness :
    build_custom_regex_recognizer (fun _ => false) (some "x") = none
    ∧ build_custom_regex_recognizer (fun _ => true) (some "x") =
        some { supported_entity := "CUSTOM_PII",
               patterns := [{ name := "custom_pattern", regex := "x", score := 85/100 }] } :=
  ⟨(claim_C5_build_recognizer (fun _ => false)).2.2.1 "x" (by decide) rfl,
   (claim_C5_build_recognizer (fun _ => true)).2.2.2 "x" (by decide) rfl⟩

/-- C8: on the empty string `detect_pii` returns the empty list (the
analyzer, which reports spans of its input, reports nothing on empty
text), for any custom pattern. -/
theorem claim_C8_empty_text (analyze : AnalyzeFn) (regexOk : String → Bool)
    (custom_regex : Option String)
    (h : ∀ c ents, analyze c [] ents = []) :
    detect_pii analyze regexOk [] custom_regex = [] := by
  simp [detect_pii, h]

/-- Witness for C8: a concrete engine that is empty on empty text. -/
theorem claim_C8_empty_text_witness :
    detect_pii analyzeNone (fun _ => true) [] (some "a") = [] :=
  claim_C8_empty_text analyzeNone (fun _ => true) (some "a") (fun _ _ => rfl)

/-- C1: with the span-replacing anonymizer engine, `anonymize_text`
filters out every analyzer result whose exact matched substring is in
the whitelist before anonymizing; consequently each whitelisted detected
span occurs unmodified in the output, while every non-whitelisted result
is replaced by its placeholder (which therefore occurs in the output). -/
theorem claim_C1_whitelist (analyze : AnalyzeFn) (regexOk : String → Bool)
    (text : List Char) (custom_regex : Option String) (wl : List (List Char))
    (hwf : SpansWF text (analyze (customOf regexOk custom_regex) text none)) :
    (wl ≠ [] →
      anonymize_text analyze applySpans regexOk text custom_regex wl =
        applySpans text ((analyze (customOf regexOk custom_regex) text none).filter
          (fun r => decide (pySlice text r.start r.stop ∉ wl))))
    ∧ (∀ r ∈ analyze (customOf regexOk custom_regex) text none,
        pySlice text r.start r.stop ∈ wl →
        occursIn (pySlice text r.start r.stop)
          (anonymize_text analyze applySpans regexOk text custom_regex wl))
    ∧ (∀ r ∈ analyze (customOf regexOk custom_regex) text none,
        pySlice text r.start r.stop ∉ wl →
        occursIn (placeholder r.entity_type)
          (anonymize_text analyze applySpans regexOk text custom_regex wl)) := by
  have hEmpty : ∀ l : List (List Char), l ≠ [] → l.isEmpty = false := by
    intro l hl
    cases l with
    | nil => exact absurd rfl hl
    | cons a as => rfl
  refine ⟨?_, ?_, ?_⟩
  · intro hne
    simp [anonymize_text, hEmpty wl hne]
  · intro r hr hmem
    have hne : wl ≠ [] := List.ne_nil_of_mem hmem
    simp only [anonymize_text, hEmpty wl hne, Bool.false_eq_true, if_false]
    unfold applySpans
    apply occursIn_applySpansFrom text r.start r.stop (hwf.2 r hr).2 _ 0 (Nat.zero_le _)
    · intro x hx
      exact (hwf.2 x (List.mem_of_mem_filter hx)).1
    · exact hwf.1.sublist (List.filter_sublist _)
    · intro x hx
      have hxr := List.mem_filter.mp hx
      have hxs : pySlice text x.start x.stop ∉ wl := by simpa using hxr.2
      have hne2 : r ≠ x := by
        intro h
        rw [← h] at hxs
        exact hxs hmem
      have hsym : Symmetric
          (fun a b : RecognizerResult => a.stop ≤ b.start ∨ b.stop ≤ a.start) :=
        fun a b h => h.symm
      have hp2 : (analyze (customOf regexOk custom_regex) text none).Pairwise
          (fun a b => a.stop ≤ b.start ∨ b.stop ≤ a.start) :=
        hwf.1.imp (fun h => Or.inl h)
      exact List.Pairwise.forall hsym hp2 hr hxr.1 hne2
  · intro r hr hmem
    by_cases hwlE : wl = []
    · subst hwlE
      simp only [anonymize_text, List.isEmpty_nil, if_true]
      exact placeholder_occursIn text _ 0 r hr
    · simp only [anonymize_text, hEmpty wl hwlE, Bool.false_eq_true, if_false]
      apply placeholder_occursIn text _ 0 r
      exact List.mem_filter.mpr ⟨hr, by simpa using hmem⟩

/-- Witness for C1: a two-result analyzer on "John ab@x" with "John"
whitelisted. -/
theorem claim_C1_whitelist_witness :
    SpansWF textW (analyzeW (customOf (fun _ => false) none) textW none)
    ∧ ((wlW ≠ [] →
        anonymize_text analyzeW applySpans (fun _ => false) textW none wlW =
          applySpans textW ((analyzeW (customOf (fun _ => false) none) textW none).filter
            (fun r => decide (pySlice textW r.start r.stop ∉ wlW))))
      ∧ (∀ r ∈ analyzeW (customOf (fun _ => false) none) textW none,
          pySlice textW r.start r.stop ∈ wlW →
          occursIn (pySlice textW r.start r.stop)
            (anonymize_text analyzeW applySpans (fun _ => false) textW none wlW))
      ∧ (∀ r ∈ analyzeW (customOf (fun _ => false) none) textW none,
          pySlice textW r.start r.stop ∉ wlW →
          occursIn (placeholder r.entity_type)
            (anonymize_text analyzeW applySpans (fun _ => false) textW none wlW))) :=
  ⟨by decide, claim_C1_whitelist analyzeW (fun _ => false) textW none wlW (by decide)⟩

/-- Counterexample to C2 as stated: a legitimate engine result of type
`EMAIL_ADDRESS` (one of the entity types `detect_pii` itself requests,
and within score bounds) yields a match whose category is the raw name
`EMAIL_ADDRESS`, which is not in the spec's enumerated label set
{PERSON, EMAIL, PHONE, LOCATION, ORGANIZATION, CREDIT_CARD, CUSTOM}:
the `PII_LABELS` mapping is never applied. -/
theorem claim_C2_counterexample :
    (∀ r ∈ analyzeC2 (customOf (fun _ => true) none) textC2 (some detectEntities),
        r.entity_type ∈ detectEntities ∧ 0 ≤ r.score ∧ r.score ≤ 1)
    ∧ ¬ (∀ e ∈ detect_pii analyzeC2 (fun _ => true) textC2 none,
          e.entity ∈ specLabels) := by
  constructor
  · decide
  · intro h
    have := h { entity := "EMAIL_ADDRESS", score := round3 1,
                text := pySlice textC2 0 2 } (by simp [detect_pii, analyzeC2])
    revert this
    decide

/-- C2 (amended): every match returned by `detect_pii` carries one of
the six raw entity names `detect_pii` requests from the engine
({PERSON, EMAIL_ADDRESS, PHONE_NUMBER, LOCATION, CREDIT_CARD,
CUSTOM_PII} — the unused `PII_LABELS` display mapping is never applied),
a confidence in [0,1] rounded to three decimal places (an integer
multiple of 1/1000), and `matched_text = text[start:end]` for its
originating result. -/
theorem claim_C2_entries (analyze : AnalyzeFn) (regexOk : String → Bool)
    (text : List Char) (custom_regex : Option String)
    (hents : ∀ r ∈ analyze (customOf regexOk custom_regex) text (some detectEntities),
      r.entity_type ∈ detectEntities)
    (hscore : ∀ r ∈ analyze (customOf regexOk custom_regex) text (some detectEntities),
      0 ≤ r.score ∧ r.score ≤ 1) :
    ∀ e ∈ detect_pii analyze regexOk text custom_regex,
      e.entity ∈ detectEntities
      ∧ (0 ≤ e.score ∧ e.score ≤ 1)
      ∧ (∃ n : ℤ, e.score = (n : ℚ) / 1000)
      ∧ ∃ r ∈ analyze (customOf regexOk custom_regex) text (some detectEntities),
          e.entity = r.entity_type ∧ e.score = round3 r.score
          ∧ e.text = pySlice text r.start r.stop := by
  intro e he
  simp only [detect_pii, List.mem_map] at he
  obtain ⟨r, hr, rfl⟩ := he
  refine ⟨hents r hr, round3_mem_unit (hscore r hr).1 (hscore r hr).2,
    ⟨round (r.score * 1000), rfl⟩, r, hr, rfl, rfl, rfl⟩

/-- Witness for C2 (amended): the concrete `EMAIL_ADDRESS` engine. -/
theorem claim_C2_entries_witness :
    (∀ r ∈ analyzeC2 (customOf (fun _ => true) none) textC2 (some detectEntities),
        r.entity_type ∈ detectEntities)
    ∧ (∀ r ∈ analyzeC2 (customOf (fun _ => true) none) textC2 (some detectEntities),
        0 ≤ r.score ∧ r.score ≤ 1)
    ∧ ∀ e ∈ detect_pii analyzeC2 (fun _ => true) textC2 none,
        e.entity ∈ detectEntities
        ∧ (0 ≤ e.score ∧ e.score ≤ 1)
        ∧ (∃ n : ℤ, e.score = (n : ℚ) / 1000)
        ∧ ∃ r ∈ analyzeC2 (customOf (fun _ => true) none) textC2 (some detectEntities),
            e.entity = r.entity_type ∧ e.score = round3 r.score
            ∧ e.text = pySlice textC2 r.start r.stop :=
  ⟨by decide, by decide,
   claim_C2_entries analyzeC2 (fun _ => true) textC2 none (by decide) (by decide)⟩

mutual

theorem sameShape_process_str (g : List Char → List Char) :
    ∀ j : JsonVal, sameShape j (process_json (fun s => JsonVal.str (g s)) j) = true
  | .obj kvs => by
    rw [process_json, sameShape]
    exact sameShapeObj_process_str g kvs
  | .arr xs => by
    rw [process_json, sameShape]
    exact sameShapeArr_process_str g xs
  | .str s => by rw [process_json, sameShape]
  | .num q => by rw [process_json, sameShape]; simp
  | .boolean b => by rw [process_json, sameShape]; simp
  | .null => by rw [process_json, sameShape]

theorem sameShapeObj_process_str (g : List Char → List Char) :
    ∀ kvs : List (String × JsonVal),
      sameShapeObj kvs (process_json_obj (fun s => JsonVal.str (g s)) kvs) = true
  | [] => by rw [process_json_obj, sameShapeObj]
  | (k, v) :: rest => by
    rw [process_json_obj, sameShapeObj]
    simp only [Bool.and_eq_true]
    exact ⟨⟨by simp, sameShape_process_str g v⟩, sameShapeObj_process_str g rest⟩

theorem sameShapeArr_process_str (g : List Char → List Char) :
    ∀ xs : List JsonVal,
      sameShapeArr xs (process_json_arr (fun s => JsonVal.str (g s)) xs) = true
  | [] => by rw [process_json_arr, sameShapeArr]
  | x :: rest => by
    rw [process_json_arr, sameShapeArr]
    simp only [Bool.and_eq_true]
    exact ⟨sameShape_process_str g x, sameShapeArr_process_str g rest⟩

end

/-- C4: in anonymize mode (`mode ≠ "detect"`), the JSON branch of
`process_file` rewrites only string leaves: the processed document has
the same structural shape (same keys in order, same list lengths, equal
non-string scalars), and `process_file` returns its serialization as
both members of the pair. -/
theorem claim_C4_json_shape (E : ExtEnv) (custom_regex whitelist : Option String)
    (mode : String) (f : UploadedFile) (j : JsonVal)
    (hmode : mode ≠ "detect")
    (hname1 : pyEndsWith (pyLower f.name) (strChars ".csv") = false)
    (hname2 : pyEndsWith (pyLower f.name) (strChars ".json") = true)
    (hparse : E.jsonParse f.data = some j) :
    ∃ j2, process_file E (some f) custom_regex whitelist mode =
        some (E.jsonDump j2, some (E.jsonDump j2))
      ∧ sameShape j j2 = true := by
  refine ⟨process_json (jsonLeaf E custom_regex (wlItemsOf whitelist) mode) j, ?_, ?_⟩
  · simp [process_file, hname1, hname2, processJsonFile, hparse]
  · have hleaf : jsonLeaf E custom_regex (wlItemsOf whitelist) mode =
        fun s => JsonVal.str (anonymize_text E.analyze E.anonEngine E.regexOk s
          custom_regex (wlItemsOf whitelist)) := by
      funext s
      simp [jsonLeaf, hmode]
    rw [hleaf]
    exact sameShape_process_str _ j

/-- Witness for C4: the concrete environment parsing to a one-key map,
in anonymize mode. -/
theorem claim_C4_json_shape_witness :
    ("anonymize" : String) ≠ "detect"
    ∧ pyEndsWith (pyLower fJson.name) (strChars ".csv") = false
    ∧ pyEndsWith (pyLower fJson.name) (strChars ".json") = true
    ∧ extW.jsonParse fJson.data = some jsonW
    ∧ ∃ j2, process_file extW (some fJson) none none "anonymize" =
          some (extW.jsonDump j2, some (extW.jsonDump j2))
        ∧ sameShape jsonW j2 = true :=
  ⟨by decide, by decide, by decide, rfl,
   claim_C4_json_shape extW none none "anonymize" fJson jsonW (by decide)
     (by decide) (by decide) rfl⟩

theorem pyEndsWith_excl {s suf1 : List Char} (suf2 : List Char)
    (h : pyEndsWith s suf1 = true)
    (h1 : ¬ suf1 <:+ suf2) (h2 : ¬ suf2 <:+ suf1) : pyEndsWith s suf2 = false := by
  unfold pyEndsWith at h ⊢
  rw [decide_eq_true_eq] at h
  rw [decide_eq_false_iff_not]
  intro hs
  rcases List.suffix_or_suffix_of_suffix h hs with hc | hc
  · exact h1 hc
  · exact h2 hc

/-- C3: when the decoded CSV content parses to header `H` and rows `R`,
`process_file` (in either mode) serializes `H` unmodified followed by
exactly `|R|` transformed rows, each of the same cell count as its input
row — only cell contents change. -/
theorem claim_C3_csv_shape (E : ExtEnv) (custom_regex whitelist : Option String)
    (mode : String) (f : UploadedFile) (H : List (List Char))
    (R : List (List (List Char)))
    (hname : pyEndsWith (pyLower f.name) (strChars ".csv") = true)
    (hparse : E.csvParse f.data = H :: R) :
    ∃ R2, process_file E (some f) custom_regex whitelist mode =
        some (E.csvWrite (H :: R2), some (E.csvWrite (H :: R2)))
      ∧ R2.length = R.length
      ∧ R2.map List.length = R.map List.length := by
  refine ⟨R.map (fun row => row.map
    (cellTransform E custom_regex (wlItemsOf whitelist) mode)), ?_, ?_, ?_⟩
  · simp [process_file, hname, processCsv, hparse]
  · simp
  · simp [List.map_map]

/-- Witness for C3: the concrete environment whose reader yields a
header and one single-cell row. -/
theorem claim_C3_csv_shape_witness :
    pyEndsWith (pyLower fCsv.name) (strChars ".csv") = true
    ∧ extW.csvParse fCsv.data = [strChars "name"] :: [[strChars "John"]]
    ∧ ∃ R2, process_file extW (some fCsv) none none "anonymize" =
          some (extW.csvWrite ([strChars "name"] :: R2),
                some (extW.csvWrite ([strChars "name"] :: R2)))
        ∧ R2.length = [[strChars "John"]].length
        ∧ R2.map List.length = [[strChars "John"]].map List.length :=
  ⟨by decide, rfl,
   claim_C3_csv_shape extW none none "anonymize" fCsv [strChars "name"]
     [[strChars "John"]] (by decide) rfl⟩

/-- C10: the CSV branch indexes `reader[0]`, so a `.csv` whose content
parses to zero rows makes `process_file` raise (no result), while any
parse with at least one row returns a result. -/
theorem claim_C10_csv_empty (E : ExtEnv) (custom_regex whitelist : Option String)
    (mode : String) (f : UploadedFile)
    (hname : pyEndsWith (pyLower f.name) (strChars ".csv") = true) :
    (E.csvParse f.data = [] →
      process_file E (some f) custom_regex whitelist mode = none)
    ∧ (E.csvParse f.data ≠ [] →
      ∃ r, process_file E (some f) custom_regex whitelist mode = some r) := by
  constructor
  · intro hparse
    simp [process_file, hname, processCsv, hparse]
  · intro hparse
    match hp : E.csvParse f.data with
    | [] => exact absurd hp hparse
    | header :: rows =>
      exact ⟨(E.csvWrite (header :: rows.map (fun row => row.map
          (cellTransform E custom_regex (wlItemsOf whitelist) mode))),
        some (E.csvWrite (header :: rows.map (fun row => row.map
          (cellTransform E custom_regex (wlItemsOf whitelist) mode))))),
        by simp [process_file, hname, processCsv, hp]⟩

/-- Witness for C10: the empty-reader environment raises, the one-row
environment succeeds. -/
theorem claim_C10_csv_empty_witness :
    (process_file extEmptyCsv (some fCsv) none none "detect" = none)
    ∧ ∃ r, process_file extW (some fCsv) none none "detect" = some r :=
  ⟨(claim_C10_csv_empty extEmptyCsv none none "detect" fCsv (by decide)).1 rfl,
   (claim_C10_csv_empty extW none none "detect" fCsv (by decide)).2 (by decide)⟩

/-- C6: the three error cases of `process_file` each return a fixed
message paired with an absent payload: no file ⇒ "No file uploaded";
a `.pdf` name ⇒ the fixed PDF message regardless of content, with no
extraction attempted; any other unrecognized extension ⇒
"Unsupported file type". -/
theorem claim_C6_error_cases (E : ExtEnv) (custom_regex whitelist : Option String)
    (mode : String) :
    process_file E none custom_regex whitelist mode =
      some (strChars "No file uploaded", none)
    ∧ (∀ f : UploadedFile, pyEndsWith (pyLower f.name) (strChars ".pdf") = true →
        process_file E (some f) custom_regex whitelist mode =
          some (strChars pdfMsg, none))
    ∧ (∀ f : UploadedFile,
        pyEndsWith (pyLower f.name) (strChars ".csv") = false →
        pyEndsWith (pyLower f.name) (strChars ".json") = false →
        pyEndsWith (pyLower f.name) (strChars ".txt") = false →
        pyEndsWith (pyLower f.name) (strChars ".pdf") = false →
        process_file E (some f) custom_regex whitelist mode =
          some (strChars "Unsupported file type", none)) := by
  refine ⟨rfl, ?_, ?_⟩
  · intro f hpdf
    have hcsv := pyEndsWith_excl (strChars ".csv") hpdf (by decide) (by decide)
    have hjson := pyEndsWith_excl (strChars ".json") hpdf (by decide) (by decide)
    have htxt := pyEndsWith_excl (strChars ".txt") hpdf (by decide) (by decide)
    simp [process_file, hcsv, hjson, htxt, hpdf]
  · intro f hcsv hjson htxt hpdf
    simp [process_file, hcsv, hjson, htxt, hpdf]

/-- Witness for C6: a mixed-case `.PDF` name and a `.xyz` name. -/
theorem claim_C6_error_cases_witness :
    pyEndsWith (pyLower fPdf.name) (strChars ".pdf") = true
    ∧ process_file extW (some fPdf) none none "detect" = some (strChars pdfMsg, none)
    ∧ process_file extW (some fXyz) none none "detect" =
        some (strChars "Unsupported file type", none) :=
  ⟨by decide,
   (claim_C6_error_cases extW none none "detect").2.1 fPdf (by decide),
   (claim_C6_error_cases extW none none "detect").2.2 fXyz (by decide) (by decide)
     (by decide) (by decide)⟩

/-- C7: for the supported extensions (.csv, .json, .txt) any result pair
has identical display and payload strings, and in the no-file, `.pdf`
and unrecognized-extension cases the payload is absent. -/
theorem claim_C7_payload (E : ExtEnv) (custom_regex whitelist : Option String)
    (mode : String) :
    (∀ (f : UploadedFile) (r : List Char × Option (List Char)),
        (pyEndsWith (pyLower f.name) (strChars ".csv") = true
          ∨ pyEndsWith (pyLower f.name) (strChars ".json") = true
          ∨ pyEndsWith (pyLower f.name) (strChars ".txt") = true) →
        process_file E (some f) custom_regex whitelist mode = some r →
        r.2 = some r.1)
    ∧ (∀ r : List Char × Option (List Char),
        process_file E none custom_regex whitelist mode = some r → r.2 = none)
    ∧ (∀ (f : UploadedFile) (r : List Char × Option (List Char)),
        pyEndsWith (pyLower f.name) (strChars ".pdf") = true →
        process_file E (some f) custom_regex whitelist mode = some r → r.2 = none)
    ∧ (∀ (f : UploadedFile) (r : List Char × Option (List Char)),
        pyEndsWith (pyLower f.name) (strChars ".csv") = false →
        pyEndsWith (pyLower f.name) (strChars ".json") = false →
        pyEndsWith (pyLower f.name) (strChars ".txt") = false →
        pyEndsWith (pyLower f.name) (strChars ".pdf") = false →
        process_file E (some f) custom_regex whitelist mode = some r →
        r.2 = none) := by
  refine ⟨?_, ?_, ?_, ?_⟩
  · intro f r hsup hres
    rcases hsup with hcsv | hjson | htxt
    · rw [show process_file E (some f) custom_regex whitelist mode =
          processCsv E custom_regex (wlItemsOf whitelist) mode f.data from
          by simp [process_file, hcsv]] at hres
      rw [processCsv] at hres
      match hp : E.csvParse f.data with
      | [] => rw [hp] at hres; exact absurd hres (by simp)
      | header :: rows =>
        rw [hp] at hres
        simp only [Option.some_inj] at hres
        rw [← hres]
    · have hcsv := pyEndsWith_excl (strChars ".csv") hjson (by decide) (by decide)
      rw [show process_file E (some f) custom_regex whitelist mode =
          processJsonFile E custom_regex (wlItemsOf whitelist) mode f.data from
          by simp [process_file, hcsv, hjson]] at hres
      rw [processJsonFile] at hres
      match hp : E.jsonParse f.data with
      | none => rw [hp] at hres; exact absurd hres (by simp)
      | some j =>
        rw [hp] at hres
        simp only [Option.some_inj] at hres
        rw [← hres]
    · have hcsv := pyEndsWith_excl (strChars ".csv") htxt (by decide) (by decide)
      have hjson := pyEndsWith_excl (strChars ".json") htxt (by decide) (by decide)
      rw [show process_file E (some f) custom_regex whitelist mode =
          processTxt E custom_regex (wlItemsOf whitelist) mode f.data from
          by simp [process_file, hcsv, hjson, htxt]] at hres
      rw [processTxt] at hres
      simp only [Option.some_inj] at hres
      rw [← hres]
  · intro r hres
    simp only [process_file, Option.some_inj] at hres
    rw [← hres]
  · intro f r hpdf hres
    have hcsv := pyEndsWith_excl (strChars ".csv") hpdf (by decide) (by decide)
    have hjson := pyEndsWith_excl (strChars ".json") hpdf (by decide) (by decide)
    have htxt := pyEndsWith_excl (strChars ".txt") hpdf (by decide) (by decide)
    simp only [process_file, hcsv, hjson, htxt, hpdf, Bool.false_eq_true, if_false,
      if_true, Option.some_inj] at hres
    rw [← hres]
  · intro f r hcsv hjson htxt hpdf hres
    simp only [process_file, hcsv, hjson, htxt, hpdf, Bool.false_eq_true, if_false,
      Option.some_inj] at hres
    rw [← hres]

/-- Witness for C7: concrete uploads of each kind through the concrete
environment. -/
theorem claim_C7_payload_witness :
    (∃ r, process_file extW (some fTxt) none none "anonymize" = some r ∧ r.2 = some r.1)
    ∧ (∃ r, process_file extW (some fPdf) none none "anonymize" = some r ∧ r.2 = none) := by
  constructor
  · cases hres : process_file extW (some fTxt) none none "anonymize" with
    | none => exact absurd hres (by decide)
    | some r =>
      exact ⟨r, rfl, (claim_C7_payload extW none none "anonymize").1 fTxt r
        (Or.inr (Or.inr (by decide))) hres⟩
  · cases hres : process_file extW (some fPdf) none none "anonymize" with
    | none => exact absurd hres (by decide)
    | some r =>
      exact ⟨r, rfl, (claim_C7_payload extW none none "anonymize").2.2.1 fPdf r
        (by decide) hres⟩

/-- C9: in detect mode the whitelist cannot influence the result:
`process_file` with mode "detect" is the same function of the file and
custom pattern for any two whitelist strings, because the whitelist
items are only ever passed to `anonymize_text` and `detect_pii` never
sees them. -/
theorem claim_C9_detect_ignores_whitelist (E : ExtEnv) (file : Option UploadedFile)
    (custom_regex : Option String) (wl1 wl2 : Option String) :
    process_file E file custom_regex wl1 "detect" =
      process_file E file custom_regex wl2 "detect" := by
  cases file with
  | none => rfl
  | some f =>
    have hc : ∀ X : List (List Char), cellTransform E custom_regex X "detect" =
        fun cell => E.renderDetect (detect_pii E.analyze E.regexOk cell custom_regex) := by
      intro X
      funext cell
      simp [cellTransform]
    have hj : ∀ X : List (List Char), jsonLeaf E custom_regex X "detect" =
        fun s => detectLeaf (detect_pii E.analyze E.regexOk s custom_regex) := by
      intro X
      funext s
      simp [jsonLeaf]
    simp only [process_file, processCsv, processJsonFile, processTxt, hc, hj]
